import Mathlib

/-!
Verification of `scripts/audio_to_audio/convert_nemo_to_lhotse.py`.

The script converts a NeMo audio-to-audio manifest (one JSON record per
line) into a Lhotse cut manifest.  We embed the per-record transformation
shallowly: JSON records become association lists of `String × Value`,
the external collaborators (the audio-file metadata prober, the numpy
loader, the NeMo path resolver) become components of an abstract
environment `Env`, and the Lhotse data model (`Recording`, `AudioSource`,
cuts, `Array`) becomes plain Lean structures.  Machine floats in the
source (durations, offsets) are modelled by `Rat`; every failure mode
(a Python `KeyError`, `AssertionError`, `IndexError`) becomes an
explicit `Except` error.
-/

namespace NemoToLhotse

/-- JSON-like values carried by a manifest record: strings (paths),
numbers (duration/offset), lists of strings (multi-file paths) and
lists of integers (channel selectors). -/
inductive Value where
  | vStr : String → Value
  | vNum : Rat → Value
  | vStrList : List String → Value
  | vNatList : List Nat → Value
deriving DecidableEq

/-- One manifest record: an ordered map from keys to values, as loaded
from one JSON line (`load_jsonl` yields a `dict`). -/
abbrev Record := List (String × Value)

/-- Error kinds of the script.  In Python all of these surface as
uncaught exceptions that abort the run: `missingField` is a `KeyError`
from `dict.pop`, `schemaViolation` and `unsupportedFormat` are the
`assert` failures, `typeMismatch` models passing a value of the wrong
shape to a collaborator, `valueError` models an `IndexError` on an
empty string. -/
inductive ConvError where
  | missingField : String → ConvError
  | schemaViolation : String → ConvError
  | unsupportedFormat : String → ConvError
  | typeMismatch : String → ConvError
  | valueError : String → ConvError
deriving DecidableEq

/-- Python dict lookup on a record (first binding wins, as in a Python dict
a key occurs at most once). -/
def Record.lookup : Record → String → Option Value
  | [], _ => none
  | kv :: rest, k => if kv.1 = k then some kv.2 else Record.lookup rest k

/-- Removal of a key from a record (the effect of a successful
`dict.pop`). -/
def Record.erase : Record → String → Record
  | [], _ => []
  | kv :: rest, k => if kv.1 = k then Record.erase rest k else kv :: Record.erase rest k

/-- Python membership test, as in the checks of `main`. -/
def Record.hasKey (r : Record) (k : String) : Bool :=
  (r.lookup k).isSome

/-- The keys of a record. -/
def Record.keys (r : Record) : List String :=
  r.map Prod.fst

/-- Python `item.pop(key)`: returns the value and the record without the key,
or raises `KeyError` when the key is absent. -/
def Record.pop (r : Record) (k : String) : Except ConvError (Value × Record) :=
  match r.lookup k with
  | some v => .ok (v, r.erase k)
  | none => .error (.missingField k)

/-- Python `item.pop(key, default)`. -/
def Record.popD (r : Record) (k : String) (d : Value) : Value × Record :=
  match r.lookup k with
  | some v => (v, r.erase k)
  | none => (d, r)

/-- Python `item.pop(key, None)` with the `is not None` test folded in. -/
def Record.popOpt (r : Record) (k : String) : Option Value × Record :=
  match r.lookup k with
  | some v => (some v, r.erase k)
  | none => (none, r)

/-- Python `base.update(upd)` on dicts: keys of `base` keep their
position (values overwritten from `upd` where present), keys only in
`upd` are appended in order. -/
def Record.update (base upd : Record) : Record :=
  (base.map fun kv => ((kv.1, (Record.lookup upd kv.1).getD kv.2) : String × Value))
    ++ upd.filter fun kv => !(Record.hasKey base kv.1)

/-- Metadata reported by the audio prober `lhotse.audio.info` for one
file: channel count, sampling rate, number of frames, duration in
seconds. -/
structure FileInfo where
  channels : Nat
  samplerate : Nat
  frames : Nat
  duration : Rat
deriving DecidableEq

/-- The external collaborators, abstracted: `resolve` is NeMo's
`get_full_path` (relative-to-manifest path resolution), `info` the
audio metadata prober, `npShape` the shape of the numpy array stored at
a path (`np.load(path).shape`). -/
structure Env where
  resolve : String → String
  info : String → FileInfo
  npShape : String → List Nat

/-- Lhotse `AudioSource`: one file and the contiguous channel indices
it contributes to the recording. -/
structure AudioSource where
  type : String
  channels : List Nat
  source : String
deriving DecidableEq

/-- Lhotse `Recording`. -/
structure Recording where
  id : String
  sources : List AudioSource
  sampling_rate : Nat
  num_samples : Nat
  duration : Rat
  channel_ids : List Nat
deriving DecidableEq

/-- Lhotse `Array` (the script names this an embedding reference):
a pointer to an on-disk numpy array, holding only directory, file name
and shape — never the data. -/
structure ArrayRef where
  storage_type : String
  storage_path : String
  storage_key : String
  shape : List Nat
deriving DecidableEq

/-- Lhotse cut, as the script uses it: a `[start, start+duration)` view
over a recording restricted to a channel subset, plus the optional
target/reference recordings, the optional embedding reference and the
open-ended `custom` map. -/
structure Cut where
  start : Rat
  duration : Rat
  recording : Recording
  channels : List Nat
  target_recording : Option Recording := none
  reference_recording : Option Recording := none
  embedding_vector : Option ArrayRef := none
  custom : Record := []
deriving DecidableEq

def Recording.num_channels (r : Recording) : Nat :=
  r.channel_ids.length

def Cut.num_channels (c : Cut) : Nat :=
  c.channels.length

/-- Lhotse `Recording.to_cut()`: the whole recording, all channels, start 0. -/
def Recording.to_cut (r : Recording) : Cut :=
  { start := 0, duration := r.duration, recording := r, channels := r.channel_ids }

/-- Lhotse `cut.truncate(duration=dur, offset=off)` as applied by the script to
a fresh full-recording cut: the result is the `[off, off+dur)` slice. -/
def Cut.truncate (c : Cut) (dur off : Rat) : Cut :=
  { c with start := off, duration := dur }

/-- Lhotse `cut.with_channels(chs)`: narrow the cut to the named channels. -/
def Cut.with_channels (c : Cut) (chs : List Nat) : Cut :=
  { c with channels := chs }

/-- Lhotse `cut.with_custom(key, value)`: set one entry of the custom map. -/
def Cut.with_custom (c : Cut) (k : String) (v : Value) : Cut :=
  { c with custom := c.custom.update [(k, v)] }

/-- The primary (or target / reference) audio field holds either a
single path or a list of paths. -/
inductive PathOrPaths where
  | single : String → PathOrPaths
  | paths : List String → PathOrPaths
deriving DecidableEq

/-- NeMo `get_full_path` applied to a path or a list of paths;
modelled by the abstract resolver of the environment. -/
def resolvePP (env : Env) : PathOrPaths → PathOrPaths
  | .single p => .single (env.resolve p)
  | .paths ps => .paths (ps.map env.resolve)

/-- The configurable CLI keys (defaults of `parse_args`). -/
structure Args where
  input_key : String
  target_key : String
  reference_key : String
  embedding_key : String
deriving DecidableEq

def defaultArgs : Args :=
  { input_key := "audio_filepath"
    target_key := "target_filepath"
    reference_key := "reference_filepath"
    embedding_key := "embedding_filepath" }

def INPUT_CHANNEL_SELECTOR : String := "input_channel_selector"
def TARGET_CHANNEL_SELECTOR : String := "target_channel_selector"
def REFERENCE_CHANNEL_SELECTOR : String := "reference_channel_selector"
def LHOTSE_TARGET_CHANNEL_SELECTOR : String := "target_recording_channel_selector"
def LHOTSE_REFERENCE_CHANNEL_SELECTOR : String := "reference_recording_channel_selector"

/-- Python `s[0]` on a string: the one-character string holding the
first character, or an `IndexError` when the string is empty. -/
def strFirst (s : String) : Except ConvError String :=
  match s.data with
  | [] => .error (.valueError "string index out of range")
  | c :: _ => .ok (String.mk [c])

/-- Lhotse `Recording.from_file(path)`: probe the file and build a
single-source recording covering channels `0..channels-1`. -/
def Recording.from_file (env : Env) (p : String) : Recording :=
  { id := p
    sources := [{ type := "file", channels := List.range (env.info p).channels, source := p }]
    sampling_rate := (env.info p).samplerate
    num_samples := (env.info p).frames
    duration := (env.info p).duration
    channel_ids := List.range (env.info p).channels }

/-- The `for p in path_or_paths` loop of `create_recording`: starting
at channel index `start`, build one `AudioSource` per file with the
contiguous block `[start, start + channels)` and return the sources
together with the final value of `cur_channel_idx`. -/
def buildSources (env : Env) (start : Nat) : List String → List AudioSource × Nat
  | [] => ([], start)
  | p :: rest =>
    let i := env.info p
    let res := buildSources env (start + i.channels) rest
    ({ type := "file", channels := List.range' start i.channels, source := p } :: res.1, res.2)

def mismatchMsg : String := "Mismatched sampling rates for individual audio files"

/-- The converter function `create_recording`: a single path delegates to
`Recording.from_file`; a list of paths is probed file by file, the
sampling rates of all files must match the first (`assert`, modelled as
`schemaViolation`), each file gets the next contiguous channel block,
and the recording id is `p[0]` — the first character of the loop
variable, which after the loop holds the last path.  An empty list
makes the Python crash on the unbound loop variable (`valueError`). -/
def create_recording (env : Env) : PathOrPaths → Except ConvError Recording
  | .single p => .ok (Recording.from_file env p)
  | .paths [] => .error (.valueError "unbound loop variable on empty path list")
  | .paths (p0 :: rest) =>
    let res := buildSources env 0 (p0 :: rest)
    if ∀ p ∈ rest, (env.info p).samplerate = (env.info p0).samplerate then
      match strFirst (List.getLast (p0 :: rest) (List.cons_ne_nil p0 rest)) with
      | .error e => .error e
      | .ok rid =>
        .ok { id := rid
              sources := res.1
              sampling_rate := (env.info p0).samplerate
              num_samples := (env.info p0).frames
              duration := (env.info p0).duration
              channel_ids := List.range res.2 }
    else .error (.schemaViolation mismatchMsg)

/-- Python `str.endswith(suffix)`. -/
def strEndsWith (s suffix : String) : Bool :=
  suffix.data.isSuffixOf s.data

/-- Python `os.path.split`: split at the last separator; the head keeps no
trailing separators unless it consists only of separators. -/
def os_path_split (p : String) : String × String :=
  let rev := p.data.reverse
  let tailRev := rev.takeWhile fun c => !(c == '/')
  let headRev := rev.dropWhile fun c => !(c == '/')
  let headAll := headRev.reverse
  let head :=
    if headAll.all fun c => (c == '/') then headAll
    else (headAll.reverse.dropWhile fun c => (c == '/')).reverse
  (String.mk head, String.mk tailRev.reverse)

/-- The converter function `create_array`: require a `.npy` path (`assert`, modelled as
`unsupportedFormat`), load the array only for its shape, and reference
the file by directory (`storage_path`) and base name (`storage_key`). -/
def create_array (env : Env) (path : String) : Except ConvError ArrayRef :=
  if strEndsWith path ".npy" then
    .ok { storage_type := "numpy_files"
          storage_path := (os_path_split path).1
          storage_key := (os_path_split path).2
          shape := env.npShape path }
  else .error (.unsupportedFormat path)

/-- Coercions of record values to the shapes the collaborators expect;
a wrong shape crashes the Python downstream. -/
def asRat : Value → Except ConvError Rat
  | .vNum x => .ok x
  | _ => .error (.typeMismatch "expected a number")

def asPathOrPaths : Value → Except ConvError PathOrPaths
  | .vStr s => .ok (.single s)
  | .vStrList l => .ok (.paths l)
  | _ => .error (.typeMismatch "expected a path or a list of paths")

def asStr : Value → Except ConvError String
  | .vStr s => .ok s
  | _ => .error (.typeMismatch "expected a string")

def asNatList : Value → Except ConvError (List Nat)
  | .vNatList l => .ok l
  | _ => .error (.typeMismatch "expected a list of channel indices")

def inputSelectorMsg : String :=
  "The input recording has only a single channel, but manifest specified input_channel_selector"

def targetSelectorMsg : String :=
  "The target recording has only a single channel, but manifest specified target_channel_selector"

def referenceSelectorMsg : String :=
  "The reference recording has only a single channel, but manifest specified reference_channel_selector"

/-- The input-channel-selector block of `main`: pop the selector if
present; on a single-channel cut only check its length (`assert`), on a
multi-channel cut narrow the cut to the selected channels. -/
def processInputSelector (st : Cut × Record) : Except ConvError (Cut × Record) :=
  match st.2.popOpt INPUT_CHANNEL_SELECTOR with
  | (none, _) => .ok st
  | (some cv, item) =>
    match asNatList cv with
    | .error e => .error e
    | .ok channels =>
      if st.1.num_channels = 1 then
        if channels.length = 1 then .ok (st.1, item)
        else .error (.schemaViolation inputSelectorMsg)
      else .ok (st.1.with_channels channels, item)

/-- The `if (channels := item.pop(TARGET_CHANNEL_SELECTOR, None)) is
not None` tail of the target block, once the target recording `r` has
been built and attached: pop the selector if present, on a
single-channel target only check its length (`assert`), otherwise store
it under the distinct Lhotse custom key. -/
def attachTargetSelector (r : Recording) (cut : Cut) (item : Record) :
    Except ConvError (Cut × Record) :=
  match item.popOpt TARGET_CHANNEL_SELECTOR with
  | (none, _) => .ok (cut, item)
  | (some cv, item2) =>
    match asNatList cv with
    | .error e => .error e
    | .ok channels =>
      if r.num_channels = 1 then
        if channels.length = 1 then .ok (cut, item2)
        else .error (.schemaViolation targetSelectorMsg)
      else .ok (cut.with_custom LHOTSE_TARGET_CHANNEL_SELECTOR (.vNatList channels), item2)

/-- The analogous tail of the reference block. -/
def attachReferenceSelector (r : Recording) (cut : Cut) (item : Record) :
    Except ConvError (Cut × Record) :=
  match item.popOpt REFERENCE_CHANNEL_SELECTOR with
  | (none, _) => .ok (cut, item)
  | (some cv, item2) =>
    match asNatList cv with
    | .error e => .error e
    | .ok channels =>
      if r.num_channels = 1 then
        if channels.length = 1 then .ok (cut, item2)
        else .error (.schemaViolation referenceSelectorMsg)
      else .ok (cut.with_custom LHOTSE_REFERENCE_CHANNEL_SELECTOR (.vNatList channels), item2)

/-- The target-recording block of `main`: only entered when the target
key is present; builds the target recording, attaches it to the cut,
then handles the target channel selector. -/
def processTarget (env : Env) (args : Args) (st : Cut × Record) :
    Except ConvError (Cut × Record) :=
  if st.2.hasKey args.target_key then
    match st.2.pop args.target_key with
    | .error e => .error e
    | .ok (tv, item) =>
      match asPathOrPaths tv with
      | .error e => .error e
      | .ok pp =>
        match create_recording env (resolvePP env pp) with
        | .error e => .error e
        | .ok r => attachTargetSelector r { st.1 with target_recording := some r } item
  else .ok st

/-- The reference-recording block of `main`, symmetric to the target
block under its own keys. -/
def processReference (env : Env) (args : Args) (st : Cut × Record) :
    Except ConvError (Cut × Record) :=
  if st.2.hasKey args.reference_key then
    match st.2.pop args.reference_key with
    | .error e => .error e
    | .ok (rv, item) =>
      match asPathOrPaths rv with
      | .error e => .error e
      | .ok pp =>
        match create_recording env (resolvePP env pp) with
        | .error e => .error e
        | .ok r => attachReferenceSelector r { st.1 with reference_recording := some r } item
  else .ok st

/-- The embedding block of `main`: only entered when the embedding key
is present; resolves the path and builds the array reference. -/
def processEmbedding (env : Env) (args : Args) (st : Cut × Record) :
    Except ConvError (Cut × Record) :=
  if st.2.hasKey args.embedding_key then
    match st.2.pop args.embedding_key with
    | .error e => .error e
    | .ok (ev, item) =>
      match asStr ev with
      | .error e => .error e
      | .ok p =>
        match create_array env (env.resolve p) with
        | .error e => .error e
        | .ok arr => .ok ({ st.1 with embedding_vector := some arr }, item)
  else .ok st

/-- The final `if item: cut.custom.update(item)` step — the leftover fields of the
record are merged into the cut's custom map. -/
def finalizeCut (cut : Cut) (item : Record) : Cut :=
  if item.isEmpty then cut else { cut with custom := cut.custom.update item }

/-- The body of the `for item in load_jsonl(...)` loop of `main`: the
full conversion of one manifest record into one cut. -/
def convert_item (env : Env) (args : Args) (item0 : Record) : Except ConvError Cut :=
  match item0.pop args.input_key with
  | .error e => .error e
  | .ok (pv, item1) =>
    match asPathOrPaths pv with
    | .error e => .error e
    | .ok pp =>
      match create_recording env (resolvePP env pp) with
      | .error e => .error e
      | .ok recording =>
        match item1.pop "duration" with
        | .error e => .error e
        | .ok (dv, item2) =>
          match asRat dv with
          | .error e => .error e
          | .ok dur =>
            let od := item2.popD "offset" (Value.vNum 0)
            match asRat od.1 with
            | .error e => .error e
            | .ok off =>
              match processInputSelector (Cut.truncate (Recording.to_cut recording) dur off, od.2) with
              | .error e => .error e
              | .ok st1 =>
                match processTarget env args st1 with
                | .error e => .error e
                | .ok st2 =>
                  match processReference env args st2 with
                  | .error e => .error e
                  | .ok st3 =>
                    match processEmbedding env args st3 with
                    | .error e => .error e
                    | .ok st4 => .ok (finalizeCut st4.1 st4.2)

/-- The whole run of `main`: convert each record in order; the first
failing record aborts the run. -/
def convert_manifest (env : Env) (args : Args) : List Record → Except ConvError (List Cut)
  | [] => .ok []
  | r :: rs =>
    match convert_item env args r with
    | .error e => .error e
    | .ok c =>
      match convert_manifest env args rs with
      | .error e => .error e
      | .ok cs => .ok (c :: cs)

/-! ### Basic lemmas about record operations -/

theorem lookup_erase_ne (i : Record) (k k2 : String) (h : k ≠ k2) :
    (i.erase k2).lookup k = i.lookup k := by
  induction i with
  | nil => rfl
  | cons kv rest ih =>
    obtain ⟨k1, w1⟩ := kv
    by_cases hk : k1 = k2
    · rw [Record.erase, if_pos hk, ih, Record.lookup,
        if_neg fun hkk : k1 = k => h (hkk.symm.trans hk)]
    · rw [Record.erase, if_neg hk, Record.lookup, Record.lookup]
      by_cases hkk : k1 = k
      · rw [if_pos hkk, if_pos hkk]
      · rw [if_neg hkk, if_neg hkk, ih]

theorem lookup_erase_self (i : Record) (k : String) :
    (i.erase k).lookup k = none := by
  induction i with
  | nil => rfl
  | cons kv rest ih =>
    by_cases hk : kv.1 = k
    · simpa [Record.erase, if_pos hk] using ih
    · simpa [Record.erase, if_neg hk, Record.lookup, if_neg hk] using ih

theorem erase_of_lookup_none (i : Record) (k : String) (h : i.lookup k = none) :
    i.erase k = i := by
  induction i with
  | nil => rfl
  | cons kv rest ih =>
    by_cases hk : kv.1 = k
    · rw [Record.lookup, if_pos hk] at h
      exact absurd h (by simp)
    · rw [Record.lookup, if_neg hk] at h
      rw [Record.erase, if_neg hk, ih h]

theorem hasKey_erase_ne (i : Record) (k k2 : String) (h : k ≠ k2) :
    (i.erase k2).hasKey k = i.hasKey k := by
  rw [Record.hasKey, Record.hasKey, lookup_erase_ne i k k2 h]

theorem mem_keys_of_lookup (i : Record) (k : String) (v : Value)
    (h : i.lookup k = some v) : k ∈ i.keys := by
  induction i with
  | nil => exact absurd h (by simp [Record.lookup])
  | cons kv rest ih =>
    by_cases hk : kv.1 = k
    · exact hk ▸ List.mem_cons_self _ _
    · rw [Record.lookup, if_neg hk] at h
      exact List.mem_cons_of_mem _ (ih h)

theorem lookup_of_mem_keys (i : Record) (k : String) (h : k ∈ i.keys) :
    ∃ v, i.lookup k = some v := by
  induction i with
  | nil => exact absurd h (by simp [Record.keys])
  | cons kv rest ih =>
    by_cases hk : kv.1 = k
    · exact ⟨kv.2, by rw [Record.lookup, if_pos hk]⟩
    · rcases List.mem_cons.mp h with h1 | h2
      · exact absurd h1.symm hk
      · rcases ih h2 with ⟨v, hv⟩
        exact ⟨v, by rw [Record.lookup, if_neg hk, hv]⟩

theorem isEmpty_false_of_lookup (i : Record) (k : String) (v : Value)
    (h : i.lookup k = some v) : i.isEmpty = false := by
  cases i with
  | nil => exact absurd h (by simp [Record.lookup])
  | cons kv rest => rfl

theorem lookup_append_rec (a b : Record) (k : String) :
    Record.lookup (a ++ b) k =
      match a.lookup k with
      | some v => some v
      | none => b.lookup k := by
  induction a with
  | nil => rfl
  | cons kv rest ih =>
    obtain ⟨k1, w1⟩ := kv
    by_cases hk : k1 = k
    · rw [List.cons_append, Record.lookup, if_pos hk, Record.lookup, if_pos hk]
    · rw [List.cons_append, Record.lookup, if_neg hk, Record.lookup, if_neg hk, ih]

theorem lookup_map_update (base upd : Record) (k : String) :
    Record.lookup
        (base.map fun kv => ((kv.1, (Record.lookup upd kv.1).getD kv.2) : String × Value)) k =
      match base.lookup k with
      | some w => some ((Record.lookup upd k).getD w)
      | none => none := by
  induction base with
  | nil => rfl
  | cons kv rest ih =>
    obtain ⟨k1, w1⟩ := kv
    by_cases hk : k1 = k
    · subst hk
      simp [Record.lookup]
    · rw [List.map_cons, Record.lookup, Record.lookup, if_neg hk, if_neg hk, ih]

theorem lookup_filter_some (upd : Record) (p : String × Value → Bool) (k : String) (v : Value)
    (hv : upd.lookup k = some v) (hp : ∀ w, p (k, w) = true) :
    Record.lookup (upd.filter p) k = some v := by
  induction upd with
  | nil => exact absurd hv (by simp [Record.lookup])
  | cons kv rest ih =>
    by_cases hk : kv.1 = k
    · rw [Record.lookup, if_pos hk] at hv
      have hkv : kv = (k, v) := by
        rcases kv with ⟨k1, v1⟩
        simp only at hk
        cases hv
        rw [hk]
      rw [hkv, List.filter_cons_of_pos (hp v), Record.lookup, if_pos rfl]
    · rw [Record.lookup, if_neg hk] at hv
      by_cases hkeep : p kv = true
      · rw [List.filter_cons_of_pos hkeep, Record.lookup, if_neg hk]
        exact ih hv
      · rw [List.filter_cons_of_neg (by simpa using hkeep)]
        exact ih hv

theorem lookup_update_some (base upd : Record) (k : String) (v : Value)
    (h : upd.lookup k = some v) : (Record.update base upd).lookup k = some v := by
  rw [Record.update, lookup_append_rec, lookup_map_update]
  cases hb : base.lookup k with
  | some w => simp [h]
  | none =>
    simp only
    exact lookup_filter_some upd _ k v h fun w => by
      simp [Record.hasKey, hb]

/-! ### Lemmas about multi-file recording construction -/

/-- Total channel count of the first `k` files of a path list: the
value of `cur_channel_idx` when the loop reaches the `k`-th file. -/
def chansBefore (env : Env) (ps : List String) (k : Nat) : Nat :=
  ((ps.take k).map fun p => (env.info p).channels).sum

theorem buildSources_fst_length (env : Env) (start : Nat) (ps : List String) :
    (buildSources env start ps).1.length = ps.length := by
  induction ps generalizing start with
  | nil => rfl
  | cons p rest ih => simp [buildSources, ih]

theorem buildSources_snd (env : Env) (start : Nat) (ps : List String) :
    (buildSources env start ps).2 = start + chansBefore env ps ps.length := by
  induction ps generalizing start with
  | nil => simp [buildSources, chansBefore]
  | cons p rest ih =>
    rw [buildSources]
    simp only [ih]
    simp [chansBefore, List.take_succ_cons]
    omega

theorem buildSources_get (env : Env) (start : Nat) (ps : List String) :
    ∀ (k : Nat) (hk : k < ps.length) (hk2 : k < (buildSources env start ps).1.length),
      (buildSources env start ps).1.get ⟨k, hk2⟩ =
        { type := "file"
          channels := List.range' (start + chansBefore env ps k)
            ((env.info (ps.get ⟨k, hk⟩)).channels)
          source := ps.get ⟨k, hk⟩ } := by
  induction ps generalizing start with
  | nil => intro k hk hk2; exact absurd hk (by simp)
  | cons p rest ih =>
    intro k hk hk2
    cases k with
    | zero => simp [buildSources, chansBefore]
    | succ k =>
      have hk3 : k < (buildSources env (start + (env.info p).channels) rest).1.length := by
        rw [buildSources_fst_length]
        exact Nat.lt_of_succ_lt_succ hk
      have step := ih (start + (env.info p).channels) k (Nat.lt_of_succ_lt_succ hk) hk3
      simp only [buildSources, List.get_cons_succ]
      rw [step]
      have harith : start + (env.info p).channels + chansBefore env rest k =
          start + chansBefore env (p :: rest) (k + 1) := by
        simp [chansBefore, List.take_succ_cons]
        omega
      rw [harith]

/-- Indexing transported along an equality of lists. -/
theorem list_get_congr {α : Type} (l1 l2 : List α) (h : l1 = l2) (k : Nat)
    (h1 : k < l1.length) (h2 : k < l2.length) : l1.get ⟨k, h1⟩ = l2.get ⟨k, h2⟩ := by
  subst h; rfl

/-- Any error of `strFirst` is the `IndexError`, never an assertion. -/
theorem strFirst_not_schema (s : String) (m : String) :
    strFirst s ≠ .error (.schemaViolation m) := by
  rw [strFirst]
  cases s.data <;> simp

/-- Characterization of a successful multi-file `create_recording`. -/
theorem create_recording_paths_ok (env : Env) (p0 : String) (rest : List String)
    (r : Recording) (h : create_recording env (.paths (p0 :: rest)) = .ok r) :
    r.sources = (buildSources env 0 (p0 :: rest)).1 ∧
    r.channel_ids = List.range (buildSources env 0 (p0 :: rest)).2 ∧
    r.sampling_rate = (env.info p0).samplerate ∧
    r.num_samples = (env.info p0).frames ∧
    r.duration = (env.info p0).duration ∧
    strFirst (List.getLast (p0 :: rest) (List.cons_ne_nil p0 rest)) = .ok r.id ∧
    (∀ p ∈ rest, (env.info p).samplerate = (env.info p0).samplerate) := by
  rw [create_recording] at h
  by_cases hsr : ∀ p ∈ rest, (env.info p).samplerate = (env.info p0).samplerate
  · rw [if_pos hsr] at h
    cases hsf : strFirst (List.getLast (p0 :: rest) (List.cons_ne_nil p0 rest)) with
    | error e => rw [hsf] at h; exact absurd h (by simp)
    | ok rid =>
      rw [hsf] at h
      injection h with h
      subst h
      exact ⟨rfl, rfl, rfl, rfl, rfl, by first | exact hsf | rfl, hsr⟩
  · rw [if_neg hsr] at h
    exact absurd h (by simp)

/-! ### Concrete environment used by the witnesses -/

/-- A concrete environment: `a.wav` is a stereo 16 kHz file, `b.wav`
mono 16 kHz, `c.wav` mono 8 kHz, `m.wav` mono 16 kHz with different
frame count; every numpy file has shape `(3, 4)`; paths resolve to
themselves. -/
def sampleEnv : Env :=
  { resolve := fun p => p
    info := fun p =>
      if p = "a.wav" then { channels := 2, samplerate := 16000, frames := 32000, duration := 2 }
      else if p = "b.wav" then { channels := 1, samplerate := 16000, frames := 16000, duration := 1 }
      else if p = "c.wav" then { channels := 1, samplerate := 8000, frames := 8000, duration := 1 }
      else if p = "m.wav" then { channels := 3, samplerate := 16000, frames := 48000, duration := 3 }
      else { channels := 1, samplerate := 16000, frames := 16000, duration := 1 }
    npShape := fun _ => [3, 4] }

/-! ### C2: contiguous channel blocks of a multi-file recording -/

/-- C2: for a multi-file primary recording built from paths with
per-file channel counts `c_1..c_n`, the `k`-th `AudioSource` is
assigned the contiguous block `[c_1+...+c_k-1, c_1+...+c_k)` in list
order (so the blocks partition `[0, total)` with no gaps or overlaps),
and `channel_ids` is `[0, c_1+...+c_n)`. -/
theorem multi_file_channel_blocks (env : Env) (ps : List String) (r : Recording)
    (h : create_recording env (.paths ps) = .ok r) :
    r.sources.length = ps.length ∧
    (∀ (k : Nat) (hk : k < ps.length) (hk2 : k < r.sources.length),
      (r.sources.get ⟨k, hk2⟩).channels =
        List.range' (chansBefore env ps k) ((env.info (ps.get ⟨k, hk⟩)).channels)) ∧
    r.channel_ids = List.range (chansBefore env ps ps.length) := by
  cases ps with
  | nil => exact absurd h (by rw [create_recording]; simp)
  | cons p0 rest =>
    obtain ⟨hsrc, hcid, -, -, -, -, -⟩ := create_recording_paths_ok env p0 rest r h
    refine ⟨by rw [hsrc, buildSources_fst_length], ?_, ?_⟩
    · intro k hk hk2
      have hk3 : k < (buildSources env 0 (p0 :: rest)).1.length := by
        rw [buildSources_fst_length]; exact hk
      have hb := buildSources_get env 0 (p0 :: rest) k hk hk3
      rw [list_get_congr r.sources (buildSources env 0 (p0 :: rest)).1 hsrc k hk2 hk3, hb]
      simp
    · rw [hcid, buildSources_snd]
      simp

/-- Witness for C2 at per-file channel counts `[2, 1]`: blocks
`[0, 1]` then `[2]`, and `channel_ids = [0, 1, 2]`. -/
theorem multi_file_channel_blocks_witness :
    ∃ r, create_recording sampleEnv (.paths ["a.wav", "b.wav"]) = .ok r ∧
      r.sources.length = 2 ∧
      (∀ h0 : 0 < r.sources.length, (r.sources.get ⟨0, h0⟩).channels = [0, 1]) ∧
      (∀ h1 : 1 < r.sources.length, (r.sources.get ⟨1, h1⟩).channels = [2]) ∧
      r.channel_ids = [0, 1, 2] := by
  obtain ⟨r, hr⟩ : ∃ r, create_recording sampleEnv (.paths ["a.wav", "b.wav"]) = .ok r :=
    ⟨_, rfl⟩
  obtain ⟨hlen, hget, hcid⟩ := multi_file_channel_blocks sampleEnv ["a.wav", "b.wav"] r hr
  refine ⟨r, hr, by simpa using hlen, ?_, ?_, by rw [hcid]; decide⟩
  · intro h0
    rw [hget 0 (by decide) h0]
    decide
  · intro h1
    rw [hget 1 (by decide) h1]
    decide

/-! ### C3: sampling-rate check across a multi-file recording -/

/-- C3: probing a multi-file primary recording fails with the
`SchemaViolation` assertion exactly when some file's sampling rate
differs from the first file's; when all rates agree no such error is
raised; and any record whose conversion fails aborts the whole
manifest run. -/
theorem multi_file_rate_check (env : Env) (p0 : String) (rest : List String) :
    ((∃ p ∈ rest, (env.info p).samplerate ≠ (env.info p0).samplerate) →
      create_recording env (.paths (p0 :: rest)) = .error (.schemaViolation mismatchMsg)) ∧
    ((∀ p ∈ rest, (env.info p).samplerate = (env.info p0).samplerate) →
      ∀ m, create_recording env (.paths (p0 :: rest)) ≠ .error (.schemaViolation m)) ∧
    (∀ (items : List Record) (it : Record), it ∈ items →
      (∃ e, convert_item env defaultArgs it = .error e) →
      ∃ e2, convert_manifest env defaultArgs items = .error e2) := by
  refine ⟨?_, ?_, ?_⟩
  · intro hmm
    have hne : ¬∀ p ∈ rest, (env.info p).samplerate = (env.info p0).samplerate := by
      rcases hmm with ⟨p, hp, hps⟩
      exact fun hall => hps (hall p hp)
    rw [create_recording, if_neg hne]
  · intro hall m
    rw [create_recording, if_pos hall]
    cases hsf : strFirst (List.getLast (p0 :: rest) (List.cons_ne_nil p0 rest)) with
    | error e =>
      intro hcontra
      injection hcontra with hcontra
      exact strFirst_not_schema _ m (hcontra ▸ hsf)
    | ok rid => simp
  · intro items it hmem hit
    induction items with
    | nil => exact absurd hmem (by simp)
    | cons r rs ih =>
      rcases hit with ⟨e, he⟩
      rcases List.mem_cons.mp hmem with h1 | h2
      · subst h1
        exact ⟨e, by rw [convert_manifest, he]⟩
      · rw [convert_manifest]
        cases hc : convert_item env defaultArgs r with
        | error e2 => exact ⟨e2, rfl⟩
        | ok c =>
          rcases ih h2 with ⟨e2, he2⟩
          exact ⟨e2, by rw [he2]⟩

/-- Witness for C3: `a.wav` at 16 kHz with `c.wav` at 8 kHz mismatch
(error raised), `a.wav` with `b.wav` both at 16 kHz (no such error). -/
theorem multi_file_rate_check_witness :
    create_recording sampleEnv (.paths ["a.wav", "c.wav"]) =
      .error (.schemaViolation mismatchMsg) ∧
    (∀ m, create_recording sampleEnv (.paths ["a.wav", "b.wav"]) ≠
      .error (.schemaViolation m)) := by
  constructor
  · exact (multi_file_rate_check sampleEnv "a.wav" ["c.wav"]).1 (by decide)
  · exact (multi_file_rate_check sampleEnv "a.wav" ["b.wav"]).2.1 (by decide)

/-! ### C7: metadata of a multi-file recording comes from the first file -/

/-- C7: the sampling rate, total sample count and duration of a
multi-file recording are those of the first listed file; the later
files contribute only their channel counts and the sampling-rate
check. -/
theorem multi_file_first_file_metadata (env : Env) (p0 : String) (rest : List String)
    (r : Recording) (h : create_recording env (.paths (p0 :: rest)) = .ok r) :
    r.sampling_rate = (env.info p0).samplerate ∧
    r.num_samples = (env.info p0).frames ∧
    r.duration = (env.info p0).duration := by
  obtain ⟨-, -, h1, h2, h3, -, -⟩ := create_recording_paths_ok env p0 rest r h
  exact ⟨h1, h2, h3⟩

/-- Witness for C7: `["a.wav", "m.wav"]` — `m.wav` has 48000 frames and
duration 3, yet the recording reports `a.wav`'s 32000 frames and
duration 2. -/
theorem multi_file_first_file_metadata_witness :
    ∃ r, create_recording sampleEnv (.paths ["a.wav", "m.wav"]) = .ok r ∧
      r.sampling_rate = 16000 ∧ r.num_samples = 32000 ∧ r.duration = 2 := by
  obtain ⟨r, hr⟩ : ∃ r, create_recording sampleEnv (.paths ["a.wav", "m.wav"]) = .ok r :=
    ⟨_, rfl⟩
  obtain ⟨h1, h2, h3⟩ := multi_file_first_file_metadata sampleEnv "a.wav" ["m.wav"] r hr
  refine ⟨r, hr, ?_, ?_, ?_⟩
  · rw [h1]; decide
  · rw [h2]; decide
  · rw [h3]; decide

/-! ### C8: the id of a multi-file recording is `p[0]` -/

/-- C8: the identifier of a multi-file recording equals the one-character
string holding the first character of the last path in the list — the
source indexes the loop variable (`p[0]`), which after the loop holds
the last path — not any complete file path. -/
theorem multi_file_id_is_first_char_of_last_path (env : Env) (ps : List String)
    (r : Recording) (hne : ps ≠ []) (c : Char) (cs : List Char)
    (hlast : (ps.getLast hne).data = c :: cs)
    (h : create_recording env (.paths ps) = .ok r) :
    r.id = String.mk [c] := by
  cases ps with
  | nil => exact absurd rfl hne
  | cons p0 rest =>
    obtain ⟨-, -, -, -, -, hsf, -⟩ := create_recording_paths_ok env p0 rest r h
    rw [strFirst] at hsf
    have hdata : ((p0 :: rest).getLast (List.cons_ne_nil p0 rest)).data = c :: cs := hlast
    rw [hdata] at hsf
    injection hsf with hsf
    exact hsf.symm

/-- Witness for C8: the recording built from `["a.wav", "b.wav"]` has
id `"b"` — the first character of `"b.wav"`. -/
theorem multi_file_id_is_first_char_of_last_path_witness :
    ∃ r, create_recording sampleEnv (.paths ["a.wav", "b.wav"]) = .ok r ∧ r.id = "b" := by
  obtain ⟨r, hr⟩ : ∃ r, create_recording sampleEnv (.paths ["a.wav", "b.wav"]) = .ok r :=
    ⟨_, rfl⟩
  refine ⟨r, hr, ?_⟩
  have hid := multi_file_id_is_first_char_of_last_path sampleEnv ["a.wav", "b.wav"] r
    (by decide) 'b' [ '.', 'w', 'a', 'v'] rfl hr
  rw [hid]

/-! ### Pop characterizations -/

theorem pop_ok (i : Record) (k : String) (v : Value) (i2 : Record)
    (h : i.pop k = .ok (v, i2)) : i.lookup k = some v ∧ i2 = i.erase k := by
  rw [Record.pop] at h
  cases hl : i.lookup k with
  | none => rw [hl] at h; exact absurd h (by simp)
  | some w =>
    rw [hl] at h
    injection h with h
    rw [Prod.mk.injEq] at h
    exact ⟨by rw [h.1], h.2.symm⟩

theorem popOpt_some (i : Record) (k : String) (v : Value) (i2 : Record)
    (h : i.popOpt k = (some v, i2)) : i.lookup k = some v ∧ i2 = i.erase k := by
  rw [Record.popOpt] at h
  cases hl : i.lookup k with
  | none => rw [hl] at h; exact absurd h (by simp)
  | some w =>
    rw [hl] at h
    rw [Prod.mk.injEq] at h
    refine ⟨?_, h.2.symm⟩
    injection h.1 with h1
    rw [h1]

theorem hasKey_of_pop_ok (i : Record) (k : String) (v : Value) (i2 : Record)
    (h : i.pop k = .ok (v, i2)) : i.hasKey k = true := by
  rw [Record.hasKey, (pop_ok i k v i2 h).1]
  rfl

/-! ### C5: embedding array references -/

/-- C5: `create_array` fails with the `UnsupportedFormat` assertion
unless the path ends in `.npy`; on a `.npy` path it returns a reference
whose shape is the on-disk array's shape, whose storage key is the
file's base name and whose storage path is the file's directory — no
array data is stored; and in the conversion an embedding path that does
not end in `.npy` fails the record. -/
theorem embedding_reference_fields (env : Env) (p : String) :
    (strEndsWith p ".npy" = false → create_array env p = .error (.unsupportedFormat p)) ∧
    (strEndsWith p ".npy" = true →
      create_array env p = .ok
        { storage_type := "numpy_files"
          storage_path := (os_path_split p).1
          storage_key := (os_path_split p).2
          shape := env.npShape p }) ∧
    (∀ (args : Args) (c : Cut) (i i2 : Record) (ep : String),
      i.pop args.embedding_key = .ok (.vStr ep, i2) →
      strEndsWith (env.resolve ep) ".npy" = false →
      processEmbedding env args (c, i) = .error (.unsupportedFormat (env.resolve ep))) := by
  refine ⟨?_, ?_, ?_⟩
  · intro h
    rw [create_array, if_neg (by simp [h])]
  · intro h
    rw [create_array, if_pos h]
  · intro args c i i2 ep hpop hend
    have hk := hasKey_of_pop_ok i args.embedding_key (.vStr ep) i2 hpop
    simp only [processEmbedding, hk, if_true, hpop, asStr]
    rw [create_array, if_neg (by simp [hend])]

/-- Witness for C5: `d/file.npy` with on-disk shape `(3, 4)` yields
shape `[3, 4]`, key `file.npy`, path `d`; `d/file.txt` is rejected. -/
theorem embedding_reference_fields_witness :
    (∃ a, create_array sampleEnv "d/file.npy" = .ok a ∧
      a.shape = [3, 4] ∧ a.storage_key = "file.npy" ∧ a.storage_path = "d" ∧
      a.storage_type = "numpy_files") ∧
    create_array sampleEnv "d/file.txt" = .error (.unsupportedFormat "d/file.txt") := by
  constructor
  · have h := (embedding_reference_fields sampleEnv "d/file.npy").2.1 (by decide)
    refine ⟨_, h, ?_, ?_, ?_, ?_⟩
    · decide
    · decide
    · decide
    · decide
  · exact (embedding_reference_fields sampleEnv "d/file.txt").1 (by decide)

/-! ### C4: input channel selector validation and narrowing -/

/-- C4: with an input channel selector present, a single-channel
primary cut whose selector does not have length 1 raises the
`SchemaViolation` assertion, and a multi-channel primary cut is
narrowed to exactly the selected channels. -/
theorem input_selector_check (cut : Cut) (item item2 : Record) (sel : List Nat)
    (hpop : item.popOpt INPUT_CHANNEL_SELECTOR = (some (.vNatList sel), item2)) :
    (cut.num_channels = 1 → sel.length ≠ 1 →
      processInputSelector (cut, item) = .error (.schemaViolation inputSelectorMsg)) ∧
    (1 < cut.num_channels →
      processInputSelector (cut, item) = .ok (cut.with_channels sel, item2)) := by
  constructor
  · intro h1 h2
    simp only [processInputSelector, hpop, asNatList]
    rw [if_pos h1, if_neg h2]
  · intro h1
    simp only [processInputSelector, hpop, asNatList]
    rw [if_neg (by omega)]

/-- Witness for C4: length-2 selector on the single-channel `b.wav` cut
raises the assertion; selector `[1]` on the two-channel `a.wav` cut
narrows the channels to `[1]`. -/
theorem input_selector_check_witness :
    processInputSelector ((Recording.from_file sampleEnv "b.wav").to_cut,
        [(INPUT_CHANNEL_SELECTOR, Value.vNatList [0, 1])]) =
      .error (.schemaViolation inputSelectorMsg) ∧
    processInputSelector ((Recording.from_file sampleEnv "a.wav").to_cut,
        [(INPUT_CHANNEL_SELECTOR, Value.vNatList [1])]) =
      .ok (((Recording.from_file sampleEnv "a.wav").to_cut).with_channels [1], []) := by
  constructor
  · exact (input_selector_check ((Recording.from_file sampleEnv "b.wav").to_cut)
      [(INPUT_CHANNEL_SELECTOR, Value.vNatList [0, 1])] [] [0, 1] (by decide)).1
      (by decide) (by decide)
  · exact (input_selector_check ((Recording.from_file sampleEnv "a.wav").to_cut)
      [(INPUT_CHANNEL_SELECTOR, Value.vNatList [1])] [] [1] (by decide)).2
      (by decide)

/-! ### C9: a length-1 selector on a single-channel cut is a no-op -/

/-- C9: on a single-channel primary cut a length-1 input channel
selector is consumed from the record but never applied: the cut is
returned unchanged, and the result is identical to converting the same
record with the selector absent. -/
theorem single_channel_selector_consumed_not_applied (cut : Cut) (item item2 : Record)
    (sel : List Nat)
    (hpop : item.popOpt INPUT_CHANNEL_SELECTOR = (some (.vNatList sel), item2))
    (h1 : cut.num_channels = 1) (h2 : sel.length = 1) :
    processInputSelector (cut, item) = .ok (cut, item2) ∧
    processInputSelector (cut, item2) = .ok (cut, item2) := by
  obtain ⟨hl, he⟩ := popOpt_some item INPUT_CHANNEL_SELECTOR (.vNatList sel) item2 hpop
  constructor
  · simp only [processInputSelector, hpop, asNatList]
    rw [if_pos h1, if_pos h2]
  · have hl2 : item2.lookup INPUT_CHANNEL_SELECTOR = none := by
      rw [he]; exact lookup_erase_self item INPUT_CHANNEL_SELECTOR
    have hp2 : item2.popOpt INPUT_CHANNEL_SELECTOR = (none, item2) := by
      rw [Record.popOpt, hl2]
    simp only [processInputSelector, hp2]

/-- Witness for C9: selector `[0]` on the single-channel `b.wav` cut is
dropped and the cut is unchanged. -/
theorem single_channel_selector_consumed_not_applied_witness :
    processInputSelector ((Recording.from_file sampleEnv "b.wav").to_cut,
        [(INPUT_CHANNEL_SELECTOR, Value.vNatList [0]), ("speaker", Value.vStr "A")]) =
      .ok ((Recording.from_file sampleEnv "b.wav").to_cut, [("speaker", Value.vStr "A")]) ∧
    processInputSelector ((Recording.from_file sampleEnv "b.wav").to_cut,
        [("speaker", Value.vStr "A")]) =
      .ok ((Recording.from_file sampleEnv "b.wav").to_cut, [("speaker", Value.vStr "A")]) := by
  exact single_channel_selector_consumed_not_applied
    ((Recording.from_file sampleEnv "b.wav").to_cut)
    [(INPUT_CHANNEL_SELECTOR, Value.vNatList [0]), ("speaker", Value.vStr "A")]
    [("speaker", Value.vStr "A")] [0] (by decide) (by decide) (by decide)

/-! ### C6: round-trip of a minimal record -/

/-- C6: a record with a single-file primary path, a duration, no
target/reference/embedding fields, no selectors and no extra fields
converts to a cut starting at 0 (or at the record's offset when an
offset field is present) with exactly the record's duration and an
empty extension map. -/
theorem minimal_record_roundtrip (env : Env) (p : String) (d o : Rat) :
    (∃ c, convert_item env defaultArgs
        [("audio_filepath", Value.vStr p), ("duration", Value.vNum d)] = .ok c ∧
      c.start = 0 ∧ c.duration = d ∧ c.custom = []) ∧
    (∃ c, convert_item env defaultArgs
        [("audio_filepath", Value.vStr p), ("duration", Value.vNum d),
          ("offset", Value.vNum o)] = .ok c ∧
      c.start = o ∧ c.duration = d ∧ c.custom = []) :=
  ⟨⟨_, rfl, rfl, rfl, rfl⟩, ⟨_, rfl, rfl, rfl, rfl⟩⟩

/-! ### How each stage of `main` consumes record keys -/

theorem processInputSelector_item (c c2 : Cut) (i i2 : Record)
    (h : processInputSelector (c, i) = .ok (c2, i2)) :
    i2 = i.erase INPUT_CHANNEL_SELECTOR := by
  cases hl : Record.lookup i INPUT_CHANNEL_SELECTOR with
  | none =>
    have hp : i.popOpt INPUT_CHANNEL_SELECTOR = (none, i) := by
      rw [Record.popOpt, hl]
    simp only [processInputSelector, hp] at h
    injection h with h
    rw [Prod.mk.injEq] at h
    rw [← h.2, erase_of_lookup_none i _ hl]
  | some v =>
    have hp : i.popOpt INPUT_CHANNEL_SELECTOR = (some v, i.erase INPUT_CHANNEL_SELECTOR) := by
      rw [Record.popOpt, hl]
    simp only [processInputSelector, hp] at h
    cases v with
    | vNatList l =>
      simp only [asNatList] at h
      by_cases h1 : c.num_channels = 1
      · rw [if_pos h1] at h
        by_cases h2 : l.length = 1
        · rw [if_pos h2] at h
          injection h with h
          rw [Prod.mk.injEq] at h
          exact h.2.symm
        · rw [if_neg h2] at h
          exact absurd h (by simp)
      · rw [if_neg h1] at h
        injection h with h
        rw [Prod.mk.injEq] at h
        exact h.2.symm
    | vStr s => simp [asNatList] at h
    | vNum q => simp [asNatList] at h
    | vStrList s => simp [asNatList] at h

theorem attachTargetSelector_item (r : Recording) (cut c2 : Cut) (item i2 : Record)
    (h : attachTargetSelector r cut item = .ok (c2, i2)) :
    i2 = item.erase TARGET_CHANNEL_SELECTOR := by
  cases hl : Record.lookup item TARGET_CHANNEL_SELECTOR with
  | none =>
    have hp : item.popOpt TARGET_CHANNEL_SELECTOR = (none, item) := by
      rw [Record.popOpt, hl]
    simp only [attachTargetSelector, hp] at h
    injection h with h
    rw [Prod.mk.injEq] at h
    rw [← h.2, erase_of_lookup_none item _ hl]
  | some v =>
    have hp : item.popOpt TARGET_CHANNEL_SELECTOR =
        (some v, item.erase TARGET_CHANNEL_SELECTOR) := by
      rw [Record.popOpt, hl]
    simp only [attachTargetSelector, hp] at h
    cases v with
    | vNatList l =>
      simp only [asNatList] at h
      by_cases h1 : r.num_channels = 1
      · rw [if_pos h1] at h
        by_cases h2 : l.length = 1
        · rw [if_pos h2] at h
          injection h with h
          rw [Prod.mk.injEq] at h
          exact h.2.symm
        · rw [if_neg h2] at h
          exact absurd h (by simp)
      · rw [if_neg h1] at h
        injection h with h
        rw [Prod.mk.injEq] at h
        exact h.2.symm
    | vStr s => simp [asNatList] at h
    | vNum q => simp [asNatList] at h
    | vStrList s => simp [asNatList] at h

theorem attachReferenceSelector_item (r : Recording) (cut c2 : Cut) (item i2 : Record)
    (h : attachReferenceSelector r cut item = .ok (c2, i2)) :
    i2 = item.erase REFERENCE_CHANNEL_SELECTOR := by
  cases hl : Record.lookup item REFERENCE_CHANNEL_SELECTOR with
  | none =>
    have hp : item.popOpt REFERENCE_CHANNEL_SELECTOR = (none, item) := by
      rw [Record.popOpt, hl]
    simp only [attachReferenceSelector, hp] at h
    injection h with h
    rw [Prod.mk.injEq] at h
    rw [← h.2, erase_of_lookup_none item _ hl]
  | some v =>
    have hp : item.popOpt REFERENCE_CHANNEL_SELECTOR =
        (some v, item.erase REFERENCE_CHANNEL_SELECTOR) := by
      rw [Record.popOpt, hl]
    simp only [attachReferenceSelector, hp] at h
    cases v with
    | vNatList l =>
      simp only [asNatList] at h
      by_cases h1 : r.num_channels = 1
      · rw [if_pos h1] at h
        by_cases h2 : l.length = 1
        · rw [if_pos h2] at h
          injection h with h
          rw [Prod.mk.injEq] at h
          exact h.2.symm
        · rw [if_neg h2] at h
          exact absurd h (by simp)
      · rw [if_neg h1] at h
        injection h with h
        rw [Prod.mk.injEq] at h
        exact h.2.symm
    | vStr s => simp [asNatList] at h
    | vNum q => simp [asNatList] at h
    | vStrList s => simp [asNatList] at h

theorem processTarget_item (env : Env) (args : Args) (c c2 : Cut) (i i2 : Record)
    (h : processTarget env args (c, i) = .ok (c2, i2)) :
    i2 = if i.hasKey args.target_key then
      (i.erase args.target_key).erase TARGET_CHANNEL_SELECTOR
    else i := by
  by_cases htk : i.hasKey args.target_key = true
  · rw [if_pos htk]
    cases hv : Record.lookup i args.target_key with
    | none => rw [Record.hasKey, hv] at htk; exact absurd htk (by simp)
    | some tv =>
      have hpop : i.pop args.target_key = .ok (tv, i.erase args.target_key) := by
        rw [Record.pop, hv]
      simp only [processTarget] at h
      rw [if_pos (show (c, i).2.hasKey args.target_key = true from htk)] at h
      simp only [hpop] at h
      cases tv with
      | vStr s =>
        simp only [asPathOrPaths] at h
        cases hcr : create_recording env (resolvePP env (.single s)) with
        | error e => rw [hcr] at h; exact absurd h (by simp)
        | ok r =>
          rw [hcr] at h
          exact attachTargetSelector_item r _ c2 _ i2 h
      | vStrList ls =>
        simp only [asPathOrPaths] at h
        cases hcr : create_recording env (resolvePP env (.paths ls)) with
        | error e => rw [hcr] at h; exact absurd h (by simp)
        | ok r =>
          rw [hcr] at h
          exact attachTargetSelector_item r _ c2 _ i2 h
      | vNum q => simp [asPathOrPaths] at h
      | vNatList ln => simp [asPathOrPaths] at h
  · rw [if_neg htk]
    simp only [processTarget] at h
    rw [if_neg (show ¬(c, i).2.hasKey args.target_key = true from htk)] at h
    injection h with h
    rw [Prod.mk.injEq] at h
    exact h.2.symm

theorem processReference_item (env : Env) (args : Args) (c c2 : Cut) (i i2 : Record)
    (h : processReference env args (c, i) = .ok (c2, i2)) :
    i2 = if i.hasKey args.reference_key then
      (i.erase args.reference_key).erase REFERENCE_CHANNEL_SELECTOR
    else i := by
  by_cases hrk : i.hasKey args.reference_key = true
  · rw [if_pos hrk]
    cases hv : Record.lookup i args.reference_key with
    | none => rw [Record.hasKey, hv] at hrk; exact absurd hrk (by simp)
    | some rv =>
      have hpop : i.pop args.reference_key = .ok (rv, i.erase args.reference_key) := by
        rw [Record.pop, hv]
      simp only [processReference] at h
      rw [if_pos (show (c, i).2.hasKey args.reference_key = true from hrk)] at h
      simp only [hpop] at h
      cases rv with
      | vStr s =>
        simp only [asPathOrPaths] at h
        cases hcr : create_recording env (resolvePP env (.single s)) with
        | error e => rw [hcr] at h; exact absurd h (by simp)
        | ok r =>
          rw [hcr] at h
          exact attachReferenceSelector_item r _ c2 _ i2 h
      | vStrList ls =>
        simp only [asPathOrPaths] at h
        cases hcr : create_recording env (resolvePP env (.paths ls)) with
        | error e => rw [hcr] at h; exact absurd h (by simp)
        | ok r =>
          rw [hcr] at h
          exact attachReferenceSelector_item r _ c2 _ i2 h
      | vNum q => simp [asPathOrPaths] at h
      | vNatList ln => simp [asPathOrPaths] at h
  · rw [if_neg hrk]
    simp only [processReference] at h
    rw [if_neg (show ¬(c, i).2.hasKey args.reference_key = true from hrk)] at h
    injection h with h
    rw [Prod.mk.injEq] at h
    exact h.2.symm

theorem processEmbedding_item (env : Env) (args : Args) (c c2 : Cut) (i i2 : Record)
    (h : processEmbedding env args (c, i) = .ok (c2, i2)) :
    i2 = if i.hasKey args.embedding_key then i.erase args.embedding_key else i := by
  by_cases hek : i.hasKey args.embedding_key = true
  · rw [if_pos hek]
    cases hv : Record.lookup i args.embedding_key with
    | none => rw [Record.hasKey, hv] at hek; exact absurd hek (by simp)
    | some ev =>
      have hpop : i.pop args.embedding_key = .ok (ev, i.erase args.embedding_key) := by
        rw [Record.pop, hv]
      simp only [processEmbedding] at h
      rw [if_pos (show (c, i).2.hasKey args.embedding_key = true from hek)] at h
      simp only [hpop] at h
      cases ev with
      | vStr s =>
        simp only [asStr] at h
        cases hca : create_array env (env.resolve s) with
        | error e => rw [hca] at h; exact absurd h (by simp)
        | ok arr =>
          rw [hca] at h
          injection h with h
          rw [Prod.mk.injEq] at h
          exact h.2.symm
      | vNum q => simp [asStr] at h
      | vStrList ls => simp [asStr] at h
      | vNatList ln => simp [asStr] at h
  · rw [if_neg hek]
    simp only [processEmbedding] at h
    rw [if_neg (show ¬(c, i).2.hasKey args.embedding_key = true from hek)] at h
    injection h with h
    rw [Prod.mk.injEq] at h
    exact h.2.symm

/-! ### The set of record keys consumed by a successful conversion -/

/-- The keys `main` pops from a record: the primary-path key and
`duration` always (conversion fails without them), `offset` and the
input channel selector when present, the target/reference path keys
when present together with their selectors when those are present too,
and the embedding path key when present. -/
def consumedKeys (args : Args) (i : Record) : List String :=
  [args.input_key, "duration"]
    ++ (if i.hasKey "offset" then ["offset"] else [])
    ++ (if i.hasKey INPUT_CHANNEL_SELECTOR then [INPUT_CHANNEL_SELECTOR] else [])
    ++ (if i.hasKey args.target_key then
          args.target_key ::
            (if i.hasKey TARGET_CHANNEL_SELECTOR then [TARGET_CHANNEL_SELECTOR] else [])
        else [])
    ++ (if i.hasKey args.reference_key then
          args.reference_key ::
            (if i.hasKey REFERENCE_CHANNEL_SELECTOR then [REFERENCE_CHANNEL_SELECTOR] else [])
        else [])
    ++ (if i.hasKey args.embedding_key then [args.embedding_key] else [])

theorem mem_consumedKeys (args : Args) (i : Record) (k : String) :
    k ∈ consumedKeys args i ↔
      (k = args.input_key ∨ k = "duration" ∨
        (k = "offset" ∧ i.hasKey "offset" = true) ∨
        (k = INPUT_CHANNEL_SELECTOR ∧ i.hasKey INPUT_CHANNEL_SELECTOR = true) ∨
        (k = args.target_key ∧ i.hasKey args.target_key = true) ∨
        (k = TARGET_CHANNEL_SELECTOR ∧ i.hasKey args.target_key = true ∧
          i.hasKey TARGET_CHANNEL_SELECTOR = true) ∨
        (k = args.reference_key ∧ i.hasKey args.reference_key = true) ∨
        (k = REFERENCE_CHANNEL_SELECTOR ∧ i.hasKey args.reference_key = true ∧
          i.hasKey REFERENCE_CHANNEL_SELECTOR = true) ∨
        (k = args.embedding_key ∧ i.hasKey args.embedding_key = true)) := by
  by_cases h1 : i.hasKey "offset" = true <;>
    by_cases h2 : i.hasKey INPUT_CHANNEL_SELECTOR = true <;>
    by_cases h3 : i.hasKey args.target_key = true <;>
    by_cases h4 : i.hasKey TARGET_CHANNEL_SELECTOR = true <;>
    by_cases h5 : i.hasKey args.reference_key = true <;>
    by_cases h6 : i.hasKey REFERENCE_CHANNEL_SELECTOR = true <;>
    by_cases h7 : i.hasKey args.embedding_key = true <;>
    simp [consumedKeys, h1, h2, h3, h4, h5, h6, h7]

theorem popD_snd (i : Record) (k : String) (d : Value) :
    (Record.popD i k d).2 = i.erase k := by
  cases hl : i.lookup k with
  | none =>
    rw [Record.popD, hl]
    exact (erase_of_lookup_none i k hl).symm
  | some v => rw [Record.popD, hl]

/-- A successful conversion (with the default CLI keys) pops exactly
the keys of `consumedKeys` from the record: every consumed key was
present in the record, and every other key of the record reaches the
cut's custom map with its original value. -/
theorem convert_ok_keys (env : Env) (i0 : Record) (cut : Cut)
    (h : convert_item env defaultArgs i0 = .ok cut) :
    (∀ k, k ∈ consumedKeys defaultArgs i0 → i0.hasKey k = true) ∧
    (∀ k v, k ∉ consumedKeys defaultArgs i0 → i0.lookup k = some v →
      cut.custom.lookup k = some v) := by
  cases hp0 : Record.pop i0 defaultArgs.input_key with
  | error e => simp [convert_item, hp0] at h
  | ok pr0 =>
  obtain ⟨pv, i1⟩ := pr0
  obtain ⟨hv0, hi1⟩ := pop_ok i0 defaultArgs.input_key pv i1 hp0
  simp only [convert_item, hp0] at h
  cases hap : asPathOrPaths pv with
  | error e => simp [hap] at h
  | ok pp =>
  simp only [hap] at h
  cases hcr : create_recording env (resolvePP env pp) with
  | error e => simp [hcr] at h
  | ok rec =>
  simp only [hcr] at h
  cases hp1 : Record.pop i1 "duration" with
  | error e => simp [hp1] at h
  | ok pr1 =>
  obtain ⟨dv, i2⟩ := pr1
  obtain ⟨hv1, hi2⟩ := pop_ok i1 "duration" dv i2 hp1
  simp only [hp1] at h
  cases har : asRat dv with
  | error e => simp [har] at h
  | ok dur =>
  simp only [har] at h
  cases hpd : Record.popD i2 "offset" (Value.vNum 0) with
  | mk ov i3 =>
  have hi3 : i3 = i2.erase "offset" := by
    rw [← popD_snd i2 "offset" (Value.vNum 0), hpd]
  simp only [hpd] at h
  cases hor : asRat ov with
  | error e => simp [hor] at h
  | ok off =>
  simp only [hor] at h
  cases hst1 : processInputSelector (Cut.truncate (Recording.to_cut rec) dur off, i3) with
  | error e => simp [hst1] at h
  | ok st1 =>
  obtain ⟨c1, i4⟩ := st1
  have hi4 : i4 = i3.erase INPUT_CHANNEL_SELECTOR :=
    processInputSelector_item _ c1 i3 i4 hst1
  simp only [hst1] at h
  cases hst2 : processTarget env defaultArgs (c1, i4) with
  | error e => simp [hst2] at h
  | ok st2 =>
  obtain ⟨c2, i5⟩ := st2
  have hi5 := processTarget_item env defaultArgs c1 c2 i4 i5 hst2
  simp only [hst2] at h
  cases hst3 : processReference env defaultArgs (c2, i5) with
  | error e => simp [hst3] at h
  | ok st3 =>
  obtain ⟨c3, i6⟩ := st3
  have hi6 := processReference_item env defaultArgs c2 c3 i5 i6 hst3
  simp only [hst3] at h
  cases hst4 : processEmbedding env defaultArgs (c3, i6) with
  | error e => simp [hst4] at h
  | ok st4 =>
  obtain ⟨c4, i7⟩ := st4
  have hi7 := processEmbedding_item env defaultArgs c3 c4 i6 i7 hst4
  simp only [hst4] at h
  injection h with h
  have htrans4 : ∀ K, K ≠ defaultArgs.input_key → K ≠ "duration" → K ≠ "offset" →
      K ≠ INPUT_CHANNEL_SELECTOR → i4.hasKey K = i0.hasKey K := by
    intro K n1 n2 n3 n4
    rw [hi4, hi3, hi2, hi1, hasKey_erase_ne _ _ _ n4, hasKey_erase_ne _ _ _ n3,
      hasKey_erase_ne _ _ _ n2, hasKey_erase_ne _ _ _ n1]
  have htrans5 : ∀ K, K ≠ defaultArgs.input_key → K ≠ "duration" → K ≠ "offset" →
      K ≠ INPUT_CHANNEL_SELECTOR → K ≠ defaultArgs.target_key →
      K ≠ TARGET_CHANNEL_SELECTOR → i5.hasKey K = i0.hasKey K := by
    intro K n1 n2 n3 n4 n5 n6
    rw [hi5]
    by_cases hbt : i4.hasKey defaultArgs.target_key = true
    · rw [if_pos hbt, hasKey_erase_ne _ _ _ n6, hasKey_erase_ne _ _ _ n5]
      exact htrans4 K n1 n2 n3 n4
    · rw [if_neg hbt]
      exact htrans4 K n1 n2 n3 n4
  have htrans6 : ∀ K, K ≠ defaultArgs.input_key → K ≠ "duration" → K ≠ "offset" →
      K ≠ INPUT_CHANNEL_SELECTOR → K ≠ defaultArgs.target_key →
      K ≠ TARGET_CHANNEL_SELECTOR → K ≠ defaultArgs.reference_key →
      K ≠ REFERENCE_CHANNEL_SELECTOR → i6.hasKey K = i0.hasKey K := by
    intro K n1 n2 n3 n4 n5 n6 n7 n8
    rw [hi6]
    by_cases hbr : i5.hasKey defaultArgs.reference_key = true
    · rw [if_pos hbr, hasKey_erase_ne _ _ _ n8, hasKey_erase_ne _ _ _ n7]
      exact htrans5 K n1 n2 n3 n4 n5 n6
    · rw [if_neg hbr]
      exact htrans5 K n1 n2 n3 n4 n5 n6
  constructor
  · intro k hk
    rw [mem_consumedKeys] at hk
    have hvd : i0.lookup "duration" = some dv := by
      rw [hi1, lookup_erase_ne i0 "duration" defaultArgs.input_key (by decide)] at hv1
      exact hv1
    rcases hk with hk | hk | ⟨hk, hh⟩ | ⟨hk, hh⟩ | ⟨hk, hh⟩ | ⟨hk, h1, h2⟩ |
      ⟨hk, hh⟩ | ⟨hk, h1, h2⟩ | ⟨hk, hh⟩
    · subst hk; rw [Record.hasKey, hv0]; rfl
    · subst hk; rw [Record.hasKey, hvd]; rfl
    · subst hk; exact hh
    · subst hk; exact hh
    · subst hk; exact hh
    · subst hk; exact h2
    · subst hk; exact hh
    · subst hk; exact h2
    · subst hk; exact hh
  · intro k v hknc hkv
    rw [mem_consumedKeys] at hknc
    have hhk : i0.hasKey k = true := by rw [Record.hasKey, hkv]; rfl
    have hki : k ≠ defaultArgs.input_key := fun he => hknc (Or.inl he)
    have hkd : k ≠ "duration" := fun he => hknc (Or.inr (Or.inl he))
    have hko : k ≠ "offset" := fun he =>
      hknc (Or.inr (Or.inr (Or.inl ⟨he, by rw [← he]; exact hhk⟩)))
    have hkis : k ≠ INPUT_CHANNEL_SELECTOR := fun he =>
      hknc (Or.inr (Or.inr (Or.inr (Or.inl ⟨he, by rw [← he]; exact hhk⟩))))
    have l1 : i1.lookup k = some v := by
      rw [hi1, lookup_erase_ne i0 k _ hki]; exact hkv
    have l2 : i2.lookup k = some v := by
      rw [hi2, lookup_erase_ne i1 k _ hkd]; exact l1
    have l3 : i3.lookup k = some v := by
      rw [hi3, lookup_erase_ne i2 k _ hko]; exact l2
    have l4 : i4.lookup k = some v := by
      rw [hi4, lookup_erase_ne i3 k _ hkis]; exact l3
    have l5 : i5.lookup k = some v := by
      rw [hi5]
      by_cases hbt : i4.hasKey defaultArgs.target_key = true
      · have hbt0 : i0.hasKey defaultArgs.target_key = true := by
          rw [← htrans4 defaultArgs.target_key (by decide) (by decide) (by decide) (by decide)]
          exact hbt
        have hktk : k ≠ defaultArgs.target_key := fun he =>
          hknc (Or.inr (Or.inr (Or.inr (Or.inr (Or.inl ⟨he, hbt0⟩)))))
        have hkts : k ≠ TARGET_CHANNEL_SELECTOR := fun he =>
          hknc (Or.inr (Or.inr (Or.inr (Or.inr (Or.inr (Or.inl
            ⟨he, hbt0, by rw [← he]; exact hhk⟩))))))
        rw [if_pos hbt, lookup_erase_ne _ k _ hkts, lookup_erase_ne _ k _ hktk]
        exact l4
      · rw [if_neg hbt]
        exact l4
    have l6 : i6.lookup k = some v := by
      rw [hi6]
      by_cases hbr : i5.hasKey defaultArgs.reference_key = true
      · have hbr0 : i0.hasKey defaultArgs.reference_key = true := by
          rw [← htrans5 defaultArgs.reference_key (by decide) (by decide) (by decide)
            (by decide) (by decide) (by decide)]
          exact hbr
        have hkrk : k ≠ defaultArgs.reference_key := fun he =>
          hknc (Or.inr (Or.inr (Or.inr (Or.inr (Or.inr (Or.inr (Or.inl ⟨he, hbr0⟩)))))))
        have hkrs : k ≠ REFERENCE_CHANNEL_SELECTOR := fun he =>
          hknc (Or.inr (Or.inr (Or.inr (Or.inr (Or.inr (Or.inr (Or.inr (Or.inl
            ⟨he, hbr0, by rw [← he]; exact hhk⟩))))))))
        rw [if_pos hbr, lookup_erase_ne _ k _ hkrs, lookup_erase_ne _ k _ hkrk]
        exact l5
      · rw [if_neg hbr]
        exact l5
    have l7 : i7.lookup k = some v := by
      rw [hi7]
      by_cases hbe : i6.hasKey defaultArgs.embedding_key = true
      · have hbe0 : i0.hasKey defaultArgs.embedding_key = true := by
          rw [← htrans6 defaultArgs.embedding_key (by decide) (by decide) (by decide)
            (by decide) (by decide) (by decide) (by decide) (by decide)]
          exact hbe
        have hkek : k ≠ defaultArgs.embedding_key := fun he =>
          hknc (Or.inr (Or.inr (Or.inr (Or.inr (Or.inr (Or.inr (Or.inr (Or.inr
            ⟨he, hbe0⟩))))))))
        rw [if_pos hbe, lookup_erase_ne _ k _ hkek]
        exact l6
      · rw [if_neg hbe]
        exact l6
    rw [← h, finalizeCut, if_neg (by rw [isEmpty_false_of_lookup i7 k v l7]; simp)]
    exact lookup_update_some c4.custom i7 k v l7

/-- The record keys that are not consumed: exactly these are copied
into the cut's custom (extension) map. -/
def extensionKeys (args : Args) (i : Record) : List String :=
  i.keys.filter fun k => !(decide (k ∈ consumedKeys args i))

/-! ### C1: consumed keys and extension keys partition the record -/

/-- C1: for every record that converts successfully, the consumed keys
are disjoint from the keys copied into the cut's extension map, the two
sets together are exactly the record's keys, and every copied key keeps
its original value verbatim. -/
theorem consumed_and_extension_keys_partition (env : Env) (i0 : Record) (cut : Cut)
    (h : convert_item env defaultArgs i0 = .ok cut) :
    (∀ k ∈ consumedKeys defaultArgs i0, k ∉ extensionKeys defaultArgs i0) ∧
    (∀ k, k ∈ i0.keys ↔
      (k ∈ consumedKeys defaultArgs i0 ∨ k ∈ extensionKeys defaultArgs i0)) ∧
    (∀ k ∈ extensionKeys defaultArgs i0, cut.custom.lookup k = i0.lookup k) := by
  obtain ⟨ha, hb⟩ := convert_ok_keys env i0 cut h
  refine ⟨?_, ?_, ?_⟩
  · intro k hkC hkE
    simp only [extensionKeys, List.mem_filter, Bool.not_eq_eq_eq_not, Bool.not_true,
      decide_eq_false_iff_not] at hkE
    exact hkE.2 hkC
  · intro k
    constructor
    · intro hk
      by_cases hc : k ∈ consumedKeys defaultArgs i0
      · exact Or.inl hc
      · refine Or.inr ?_
        rw [extensionKeys, List.mem_filter]
        exact ⟨hk, by simp [hc]⟩
    · intro hk
      rcases hk with hk | hk
      · have hkk := ha k hk
        rw [Record.hasKey] at hkk
        cases hl : i0.lookup k with
        | none => rw [hl] at hkk; exact absurd hkk (by simp)
        | some v => exact mem_keys_of_lookup i0 k v hl
      · rw [extensionKeys, List.mem_filter] at hk
        exact hk.1
  · intro k hkE
    simp only [extensionKeys, List.mem_filter, Bool.not_eq_eq_eq_not, Bool.not_true,
      decide_eq_false_iff_not] at hkE
    obtain ⟨v, hv⟩ := lookup_of_mem_keys i0 k hkE.1
    rw [hv]
    exact hb k v hkE.2 hv

/-- Witness for C1: a record with the extra field `"speaker": "A"`
converts with that field copied unchanged into the extension map, the
consumed `audio_filepath` key not among the extension keys, and
`"speaker"` among them (the spec's example). -/
theorem consumed_and_extension_keys_partition_witness :
    ∃ cut, convert_item sampleEnv defaultArgs
        [("audio_filepath", Value.vStr "a.wav"), ("duration", Value.vNum 2),
          ("speaker", Value.vStr "A")] = .ok cut ∧
      cut.custom.lookup "speaker" = some (Value.vStr "A") ∧
      "speaker" ∈ extensionKeys defaultArgs
        [("audio_filepath", Value.vStr "a.wav"), ("duration", Value.vNum 2),
          ("speaker", Value.vStr "A")] ∧
      "audio_filepath" ∉ extensionKeys defaultArgs
        [("audio_filepath", Value.vStr "a.wav"), ("duration", Value.vNum 2),
          ("speaker", Value.vStr "A")] := by
  obtain ⟨cut, hc⟩ : ∃ c, convert_item sampleEnv defaultArgs
      [("audio_filepath", Value.vStr "a.wav"), ("duration", Value.vNum 2),
        ("speaker", Value.vStr "A")] = .ok c := ⟨_, rfl⟩
  obtain ⟨-, -, h3⟩ := consumed_and_extension_keys_partition sampleEnv _ cut hc
  refine ⟨cut, hc, ?_, by decide, by decide⟩
  rw [h3 "speaker" (by decide)]
  decide

/-! ### C10: an orphan target/reference selector is untouched -/

/-- C10: a target (resp. reference) channel-selector key without its
target-path (resp. reference-path) key is neither validated nor
consumed: the corresponding block of `main` is skipped whole — it
returns the cut and the record unchanged and raises no error at all,
whatever the selector key holds and whatever its length — and on any
record that converts, the selector is copied verbatim, key and value,
into the cut's extension map.  Each half only requires its own path
key to be absent. -/
theorem orphan_selector_untouched (env : Env) (c : Cut) (i : Record) :
    (i.hasKey defaultArgs.target_key = false →
      processTarget env defaultArgs (c, i) = .ok (c, i)) ∧
    (i.hasKey defaultArgs.reference_key = false →
      processReference env defaultArgs (c, i) = .ok (c, i)) ∧
    (∀ (i0 : Record) (cut : Cut) (v : Value),
      i0.hasKey defaultArgs.target_key = false →
      i0.lookup TARGET_CHANNEL_SELECTOR = some v →
      convert_item env defaultArgs i0 = .ok cut →
      cut.custom.lookup TARGET_CHANNEL_SELECTOR = some v) ∧
    (∀ (i0 : Record) (cut : Cut) (w : Value),
      i0.hasKey defaultArgs.reference_key = false →
      i0.lookup REFERENCE_CHANNEL_SELECTOR = some w →
      convert_item env defaultArgs i0 = .ok cut →
      cut.custom.lookup REFERENCE_CHANNEL_SELECTOR = some w) := by
  refine ⟨?_, ?_, ?_, ?_⟩
  · intro ht
    simp only [processTarget]
    rw [if_neg (fun hc2 => Bool.noConfusion (ht.symm.trans hc2))]
  · intro hr
    simp only [processReference]
    rw [if_neg (fun hc2 => Bool.noConfusion (hr.symm.trans hc2))]
  · intro i0 cut v ht hv h
    obtain ⟨-, hb⟩ := convert_ok_keys env i0 cut h
    refine hb _ v ?_ hv
    intro hmem
    rw [mem_consumedKeys] at hmem
    rcases hmem with hk | hk | ⟨hk, -⟩ | ⟨hk, -⟩ | ⟨hk, -⟩ | ⟨-, hkk, -⟩ |
      ⟨hk, -⟩ | ⟨hk, -, -⟩ | ⟨hk, -⟩
    · exact absurd hk (by decide)
    · exact absurd hk (by decide)
    · exact absurd hk (by decide)
    · exact absurd hk (by decide)
    · exact absurd hk (by decide)
    · exact Bool.noConfusion (ht.symm.trans hkk)
    · exact absurd hk (by decide)
    · exact absurd hk (by decide)
    · exact absurd hk (by decide)
  · intro i0 cut w hr hw h
    obtain ⟨-, hb⟩ := convert_ok_keys env i0 cut h
    refine hb _ w ?_ hw
    intro hmem
    rw [mem_consumedKeys] at hmem
    rcases hmem with hk | hk | ⟨hk, -⟩ | ⟨hk, -⟩ | ⟨hk, -⟩ | ⟨hk, -, -⟩ |
      ⟨hk, -⟩ | ⟨-, hkk, -⟩ | ⟨hk, -⟩
    · exact absurd hk (by decide)
    · exact absurd hk (by decide)
    · exact absurd hk (by decide)
    · exact absurd hk (by decide)
    · exact absurd hk (by decide)
    · exact absurd hk (by decide)
    · exact absurd hk (by decide)
    · exact Bool.noConfusion (hr.symm.trans hkk)
    · exact absurd hk (by decide)

/-- Witness for C10: a length-3 orphan target selector and a length-3
orphan reference selector leave their blocks as the identity (no
error, nothing consumed); and a record carrying an orphan length-3
target selector next to a present reference recording converts with
the selector copied unchanged into the extension map. -/
theorem orphan_selector_untouched_witness :
    processTarget sampleEnv defaultArgs
        ((Recording.from_file sampleEnv "a.wav").to_cut,
          [(TARGET_CHANNEL_SELECTOR, Value.vNatList [0, 1, 2])]) =
      .ok ((Recording.from_file sampleEnv "a.wav").to_cut,
        [(TARGET_CHANNEL_SELECTOR, Value.vNatList [0, 1, 2])]) ∧
    processReference sampleEnv defaultArgs
        ((Recording.from_file sampleEnv "a.wav").to_cut,
          [(REFERENCE_CHANNEL_SELECTOR, Value.vNatList [0, 1, 2])]) =
      .ok ((Recording.from_file sampleEnv "a.wav").to_cut,
        [(REFERENCE_CHANNEL_SELECTOR, Value.vNatList [0, 1, 2])]) ∧
    (∃ cut, convert_item sampleEnv defaultArgs
        [("audio_filepath", Value.vStr "a.wav"), ("duration", Value.vNum 2),
          (TARGET_CHANNEL_SELECTOR, Value.vNatList [0, 1, 2]),
          ("reference_filepath", Value.vStr "b.wav")] = .ok cut ∧
      cut.custom.lookup TARGET_CHANNEL_SELECTOR = some (Value.vNatList [0, 1, 2])) := by
  refine ⟨?_, ?_, ?_⟩
  · exact (orphan_selector_untouched sampleEnv
      ((Recording.from_file sampleEnv "a.wav").to_cut)
      [(TARGET_CHANNEL_SELECTOR, Value.vNatList [0, 1, 2])]).1 (by decide)
  · exact (orphan_selector_untouched sampleEnv
      ((Recording.from_file sampleEnv "a.wav").to_cut)
      [(REFERENCE_CHANNEL_SELECTOR, Value.vNatList [0, 1, 2])]).2.1 (by decide)
  · obtain ⟨cut, hc⟩ : ∃ cc, convert_item sampleEnv defaultArgs
        [("audio_filepath", Value.vStr "a.wav"), ("duration", Value.vNum 2),
          (TARGET_CHANNEL_SELECTOR, Value.vNatList [0, 1, 2]),
          ("reference_filepath", Value.vStr "b.wav")] = .ok cc := ⟨_, rfl⟩
    exact ⟨cut, hc, (orphan_selector_untouched sampleEnv cut []).2.2.1 _ cut
      (Value.vNatList [0, 1, 2]) (by decide) (by decide) hc⟩

end NemoToLhotse
